import Mathlib

/-!
Shallow embedding of the question-bank application (QuestionBankApp):
the JSON data model, the question validator `isValidQuestion`, the
Fisher-Yates `shuffleArray`, `clampIndex`, the per-topic statistics
tracker, the state handlers (`handleCheck`, `handleResetProgress`,
`handleShuffle`, `handleImportJSON`) and the localStorage hydration
effect, translated from the TypeScript component (and, where noted,
from the older JSX component), together with theorems settling the
specification claims about them.

JavaScript numbers coming out of `JSON.parse` are finite doubles; we
model them as rationals (`Rat`).  `Number.isFinite` is therefore
identically true on modelled numbers and the corresponding source
checks become vacuous; every place where that happens is noted.
-/

namespace QBank

/-- A decoded JSON value (the result of a successful `JSON.parse`).
`undefined` (absent property) is represented by `Option.none` at use
sites; `null` is `JsonVal.null`. -/
inductive JsonVal where
  | null : JsonVal
  | bool : Bool → JsonVal
  | num : Rat → JsonVal
  | str : String → JsonVal
  | arr : List JsonVal → JsonVal
  | obj : List (String × JsonVal) → JsonVal

/-- Property access `v[k]` on a decoded JSON value: defined (`some`)
only on objects.  `JSON.parse` keeps the last of duplicate keys, hence
the `getLast?`. -/
def jget : JsonVal → String → Option JsonVal
  | .obj fs, k => ((fs.filter (fun p => p.1 == k)).getLast?).map (fun p => p.2)
  | _, _ => none

/-- Property access where an absent property (`undefined`) is conflated
with `null`; sound for every guard the source applies to such a value
(truthiness, `typeof ... === "boolean"`, `Array.isArray`, the
`typeof ... === "object"` test combined with truthiness). -/
def jfield (v : JsonVal) (k : String) : JsonVal := (jget v k).getD .null

/-- JavaScript truthiness of a decoded JSON value. -/
def truthy : JsonVal → Bool
  | .null => false
  | .bool b => b
  | .num r => !(r == 0)
  | .str s => !(s == "")
  | .arr _ => true
  | .obj _ => true

/-- `v && typeof v === "object"`: a truthy value of JS object type.
Arrays satisfy `typeof v === "object"`; `null` does as well but is
falsy. -/
def isJsObject : JsonVal → Bool
  | .obj _ => true
  | .arr _ => true
  | _ => false

/-- `isValidQuestion`, translated from the TypeScript source: the
candidate must be truthy with `id` a number or string, `topic`, `stem`
and `explanation` strings, `choices` an array of strings, and `answer`
a finite number with `0 ≤ answer < choices.length`.  Only objects can
pass (on any other value the property reads yield `undefined` and the
`id` test fails).  `Number.isFinite` holds of every modelled number
(rationals model the finite doubles produced by `JSON.parse`). -/
def isValidQuestion (q : JsonVal) : Bool :=
  (match jget q "id" with
    | some (.num _) => true
    | some (.str _) => true
    | _ => false) &&
  (match jget q "topic" with | some (.str _) => true | _ => false) &&
  (match jget q "stem" with | some (.str _) => true | _ => false) &&
  (match jget q "choices" with
    | some (.arr cs) => cs.all (fun c => match c with | .str _ => true | _ => false)
    | _ => false) &&
  (match jget q "answer", jget q "choices" with
    | some (.num a), some (.arr cs) => decide (0 ≤ a) && decide (a < (cs.length : Rat))
    | _, _ => false) &&
  (match jget q "explanation" with | some (.str _) => true | _ => false)

/-- The in-memory shape of a question (the `Question` type of the
source).  `answer` is a JavaScript number, hence a rational. -/
structure Question where
  id : JsonVal
  topic : String
  stem : String
  choices : List String
  answer : Rat
  explanation : String

/-- Reading a validated JSON value as a `Question` (the source adopts
validated values by type assertion; this is the corresponding
representation change — on values accepted by `isValidQuestion` every
default branch below is unreachable). -/
def toQuestion (v : JsonVal) : Question where
  id := (jget v "id").getD .null
  topic := match jget v "topic" with | some (.str s) => s | _ => ""
  stem := match jget v "stem" with | some (.str s) => s | _ => ""
  choices := match jget v "choices" with
    | some (.arr cs) => cs.map (fun c => match c with | .str s => s | _ => "")
    | _ => []
  answer := match jget v "answer" with | some (.num a) => a | _ => 0
  explanation := match jget v "explanation" with | some (.str s) => s | _ => ""

/-- The built-in seed bank (`initialQuestions`) of the TypeScript
component. -/
def initialQuestions : List Question :=
  [ { id := .num 1
      topic := "Physiology"
      stem := "Left ventricular (LV) isovolumic contraction continues until what cardiac event occurs?"
      choices :=
        [ "Mitral valve opens"
        , "Passive atrial filling"
        , "Increased ventricular volume"
        , "Aortic valve opens"
        , "Aortic pressure greater than left ventricular" ]
      answer := 3
      explanation := "During isovolumic contraction, both valves are closed. Contraction continues until LV pressure exceeds aortic pressure, causing the aortic valve to open." }
  , { id := .num 2
      topic := "Coronary Physiology"
      stem := "Which metabolic factor regulating coronary blood flow is derived from breakdown of high-energy phosphates?"
      choices := ["Prostaglandin", "Nitric oxide", "Endothelin-1", "Adenosine", "VEGF"]
      answer := 3
      explanation := "Adenosine is produced from ATP breakdown during low oxygen states and causes potent coronary vasodilation." } ]

/-- `clampIndex(idx, length)` on an index that is a number.  The
`!Number.isFinite(idx)` escape of the source cannot fire on a modelled
(finite) number and is handled by `clampIndexJS` for non-number
values. -/
def clampIndex (idx : Rat) (length : Int) : Rat :=
  if length ≤ 0 then 0 else max 0 (min idx ((length : Rat) - 1))

/-- `clampIndex` applied to an arbitrary decoded JSON value, as in the
hydration effect: on any non-number `Number.isFinite` is false and the
result is 0. -/
def clampIndexJS (idx : JsonVal) (length : Int) : Rat :=
  match idx with
  | .num r => clampIndex r length
  | _ => 0

/-- Array read `l[i]` at a JavaScript number index: defined only when
the index is a non-negative integer within bounds (a fractional or
negative index yields `undefined`). -/
def ratNth (l : List α) (i : Rat) : Option α :=
  if i.den = 1 ∧ 0 ≤ i.num then l.get? i.num.toNat else none

/-- Swap of two positions of a list (the destructuring swap of the
Fisher-Yates loop); identity if either index is out of range (never
the case at the call site). -/
def listSwap (l : List α) (i j : Nat) : List α :=
  match l.get? i, l.get? j with
  | some a, some b => (l.set i b).set j a
  | _, _ => l

/-- The Fisher-Yates loop of `shuffleArray`: at index `i` (running
from `l.length - 1` down to `1`) swap position `i` with a drawn
position `rand i % (i + 1)`, which ranges over `[0, i]` exactly as
`Math.floor(Math.random() * (i + 1))` does. -/
def fyAux (rand : Nat → Nat) : Nat → List α → List α
  | 0, l => l
  | i + 1, l => fyAux rand i (listSwap l (i + 1) (rand (i + 1) % (i + 2)))

/-- `shuffleArray`, parameterised by the stream of random draws.  The
source first copies its input (`const out = [...arr]`) and mutates
only the copy, so the input array is never modified and the result is
a fresh array object; the pure embedding returns the final value of
that copy. -/
def shuffleArray (rand : Nat → Nat) (l : List α) : List α :=
  fyAux rand (l.length - 1) l

/-- One per-topic counter pair of `TopicStats` (JavaScript numbers,
hence rationals: values restored from storage are not normalised by
the code). -/
structure StatEntry where
  correct : Rat
  total : Rat
deriving DecidableEq, Repr

/-- `TopicStats`: a JavaScript record, modelled as its `Object.entries`
association list (insertion-ordered, keys unique in every value the
program itself builds). -/
abbrev TopicStats := List (String × StatEntry)

/-- The stats update of `handleCheck`:
`{ ...prev, [topic]: { total: t + 1, correct: c + (isCorrect ? 1 : 0) } }`
with `prev[topic] || { correct: 0, total: 0 }` as the old entry.
A record spread updates an existing key in place and appends a new
key at the end. -/
def recordStats (stats : TopicStats) (topic : String) (isCorrect : Bool) : TopicStats :=
  let e := (stats.lookup topic).getD ⟨0, 0⟩
  let e' : StatEntry := ⟨e.correct + (if isCorrect then 1 else 0), e.total + 1⟩
  if stats.any (fun p => p.1 == topic)
  then stats.map (fun p => if p.1 == topic then (topic, e') else p)
  else stats ++ [(topic, e')]

/-- The `TopicStats` data-model invariant of the specification: every
entry has non-negative counters with `correct ≤ total`. -/
def statsInv (stats : TopicStats) : Prop :=
  ∀ p ∈ stats, 0 ≤ p.2.correct ∧ p.2.correct ≤ p.2.total

/-- Reading one stats entry out of a persisted value.  The source
adopts persisted stats by type assertion (`saved.stats as TopicStats`)
without any per-entry check; this is the corresponding representation
change, exact on shape-conformant entries (no claim exercises a
non-numeric counter; a non-numeric counter is read as 0, which agrees
with how `accuracyByTopic` treats it). -/
def castEntry (v : JsonVal) : StatEntry :=
  ⟨match jfield v "correct" with | .num r => r | _ => 0,
   match jfield v "total" with | .num r => r | _ => 0⟩

/-- Reading a persisted stats value as `TopicStats` entries, following
`Object.entries`: an object yields its fields, an array yields its
elements keyed by their decimal indices. -/
def castStats : JsonVal → TopicStats
  | .obj fs => fs.map (fun p => (p.1, castEntry p.2))
  | .arr l => l.enum.map (fun p => (toString p.1, castEntry p.2))
  | _ => []

/-- `accuracyByTopic`: `Object.entries(stats)` filtered to entries with
`total > 0` and sorted by topic name ascending.  The source guards
`s && typeof s.total === "number"` are identities under the typed
representation (see `castEntry`); `localeCompare` ascending order is
modelled as lexicographic string order (they agree on the code-point
level for the plain ASCII topic names at issue). -/
def accuracyByTopic (stats : TopicStats) : TopicStats :=
  (stats.filter (fun p => decide (0 < p.2.total))).mergeSort
    (fun p q => decide (p.1 ≤ q.1))

/-- The accuracy percentage rendered for one entry:
`Math.round((s.correct / s.total) * 100)`.  `Math.round` is
`⌊x + 1/2⌋`, which is Mathlib's `round`. -/
def accuracyPct (e : StatEntry) : Int :=
  round (e.correct / e.total * 100)

/-- The component state: question bank, navigation index, per-question
transient state (`selected`, `showAnswer`, `showExplanation`), stats,
accuracy-panel flag and last import error message.  The index is a
JavaScript number (hydration can install a fractional one). -/
structure AppState where
  questionBank : List Question
  index : Rat
  selected : Option Nat
  showAnswer : Bool
  showExplanation : Bool
  stats : TopicStats
  showAccuracy : Bool
  importError : String

/-- The current question:
`questionBank[clampIndex(index, totalQuestions)]`, `undefined`
(`none`) when the bank is empty or the clamped index is fractional. -/
def currentQuestion (s : AppState) : Option Question :=
  ratNth s.questionBank (clampIndex s.index (s.questionBank.length : Int))

/-- `handleCheck`: returns unchanged when there is no current question
or no selection (`if (!q || selected === null) return`); otherwise
reveals the answer, hides the explanation and records into the stats
whether `selected === q.answer`.  The revealed flag (`showAnswer`) is
not consulted. -/
def handleCheck (s : AppState) : AppState :=
  match currentQuestion s, s.selected with
  | some q, some sel =>
      { s with showAnswer := true
               showExplanation := false
               stats := recordStats s.stats q.topic ((sel : Rat) == q.answer) }
  | _, _ => s

/-- `handleResetProgress`: index to 0, per-question transient state
cleared, stats cleared; bank untouched. -/
def handleResetProgress (s : AppState) : AppState :=
  { s with index := 0
           selected := none
           showAnswer := false
           showExplanation := false
           stats := [] }

/-- `handleShuffle`: bank replaced by a shuffle of itself, index to 0,
per-question transient state cleared; stats untouched. -/
def handleShuffle (rand : Nat → Nat) (s : AppState) : AppState :=
  { s with questionBank := shuffleArray rand s.questionBank
           index := 0
           selected := none
           showAnswer := false
           showExplanation := false }

/-- The outcome of the import boundary, as seen by `handleImportJSON`:
no file chosen, `file.text()` rejecting (the only way into the `catch`
block), `JSON.parse` failing (in which case `safeParseJSON` returns
`null` and execution continues), or a parsed value. -/
inductive ImportInput where
  | noFile
  | readFailure
  | parseFailure
  | parsed (data : JsonVal)

/-- The structural import error message of the source. -/
def structuralMsg : String :=
  "Import failed: JSON must be an array of questions (or \x7b questions: [...] \x7d)."

/-- The schema import error message of the source. -/
def schemaMsg : String :=
  "Import failed: One or more questions are missing required fields (topic/stem/choices/answer/explanation)."

/-- The generic read/parse import error message of the source. -/
def genericMsg : String :=
  "Import failed: Could not read/parse the JSON file."

/-- `Array.isArray(data) ? data : data?.questions` — the candidate
question sequence extracted from the parsed data (`none` stands for
`undefined`: optional chaining on `null` or a primitive). -/
def importedOf : JsonVal → Option JsonVal
  | .arr l => some (.arr l)
  | .obj fs => jget (.obj fs) "questions"
  | _ => none

/-- The body of the `try` block of `handleImportJSON` after parsing
(`d` is the `safeParseJSON` result, `null` when parsing failed). -/
def importBody (rand : Nat → Nat) (d : JsonVal) (s : AppState) : AppState :=
  match importedOf d with
  | some (.arr qs) =>
      if qs.isEmpty then { s with importError := structuralMsg }
      else if !(qs.all isValidQuestion) then { s with importError := schemaMsg }
      else
        { s with questionBank := shuffleArray rand (qs.map toQuestion)
                 index := 0
                 selected := none
                 showAnswer := false
                 showExplanation := false
                 stats := []
                 importError := "" }
  | _ => { s with importError := structuralMsg }

/-- `handleImportJSON`: clears the error message, returns if no file,
and otherwise runs the parse/validate/adopt body; a read failure lands
in the `catch` block with the generic message.  On every path the
message set first (`""`) is only overwritten, never combined. -/
def handleImportJSON (rand : Nat → Nat) (inp : ImportInput) (s : AppState) : AppState :=
  match inp with
  | .noFile => { s with importError := "" }
  | .readFailure => { s with importError := genericMsg }
  | .parseFailure => importBody rand .null { s with importError := "" }
  | .parsed d => importBody rand d { s with importError := "" }

/-- First statement of the hydration effect:
`if (Array.isArray(saved.questionBank) && saved.questionBank.every(isValidQuestion))`
adopt the bank and the clamped index. -/
def hydrateBankStep (saved : JsonVal) (s : AppState) : AppState :=
  match jfield saved "questionBank" with
  | .arr qs =>
      if qs.all isValidQuestion then
        { s with questionBank := qs.map toQuestion
                 index := clampIndexJS (jfield saved "index") (qs.length : Int) }
      else s
  | _ => s

/-- Second statement of the hydration effect:
`if (typeof saved.showAccuracy === "boolean")` adopt the flag. -/
def hydrateAccuracyStep (saved : JsonVal) (s : AppState) : AppState :=
  match jfield saved "showAccuracy" with
  | .bool b => { s with showAccuracy := b }
  | _ => s

/-- Third statement of the hydration effect:
`if (saved.stats && typeof saved.stats === "object")` adopt the stats
by type assertion (see `castStats`).  Note that arrays pass this
guard. -/
def hydrateStatsStep (saved : JsonVal) (s : AppState) : AppState :=
  if isJsObject (jfield saved "stats")
  then { s with stats := castStats (jfield saved "stats") }
  else s

/-- The hydration effect of the TypeScript component, applied to the
parsed persisted value (`saved`; a missing key or failed parse never
reaches this point, and `null` or a primitive is rejected by the
`!saved || typeof saved !== "object"` guard, i.e. by `isJsObject`).
Three independent adoptions, in source order: bank with clamped index,
accuracy flag, stats. -/
def hydrate (saved : JsonVal) (s : AppState) : AppState :=
  if !(isJsObject saved) then s
  else hydrateStatsStep saved (hydrateAccuracyStep saved (hydrateBankStep saved s))

/-- JavaScript `a || b`. -/
def jsOr (v d : JsonVal) : JsonVal := if truthy v then v else d

/-- The two setter calls of the older JSX component's hydration branch
(`none` means the setter is not called). -/
structure JsxHydrateResult where
  questionBank : Option JsonVal
  index : Option JsonVal

/-- The hydration effect of the older JSX component
(`src/QuestionBankApp.jsx`): `if (saved?.questionBank)` adopt the
persisted bank unvalidated and set the index to `saved.index || 0` —
no clamping and no validation of either value. -/
def hydrateJsx (saved : JsonVal) : JsxHydrateResult :=
  if truthy (jfield saved "questionBank") then
    { questionBank := some (jfield saved "questionBank")
      index := some (jsOr (jfield saved "index") (.num 0)) }
  else { questionBank := none, index := none }

/-- A fixed stream of random draws (always drawing position 0), used
to instantiate shuffling in concrete scenarios. -/
def sampleRand : Nat → Nat := fun _ => 0

/-- A concrete reachable state in which the current answer has been
checked (`showAnswer = true`) with choice 0 still selected: the seed
bank in source order, index 0, explanation shown, empty stats. -/
def revealedState : AppState where
  questionBank := initialQuestions
  index := 0
  selected := some 0
  showAnswer := true
  showExplanation := true
  stats := []
  showAccuracy := false
  importError := ""

/-- The first seed question (topic "Physiology", answer index 3). -/
def seedQ1 : Question := initialQuestions.get ⟨0, by decide⟩

/-- A JSON value passing `isValidQuestion` (the valid sample of the
source's dev-time tests). -/
def goodQJson : JsonVal :=
  .obj [("id", .num 1), ("topic", .str "T"), ("stem", .str "S"),
        ("choices", .arr [.str "A", .str "B"]), ("answer", .num 0),
        ("explanation", .str "E")]

/-- The same shape with the fractional answer 0.5: two choices, so no
choice has index 0.5. -/
def fracAnswerQ : JsonVal :=
  .obj [("id", .num 1), ("topic", .str "T"), ("stem", .str "S"),
        ("choices", .arr [.str "A", .str "B"]), ("answer", .num (1/2)),
        ("explanation", .str "E")]

/-- A persisted snapshot whose `questionBank` is the empty array. -/
def emptyBankSnapshot : JsonVal := .obj [("questionBank", .arr [])]

/-- A persisted snapshot whose `stats` entry has `correct = 2` but
`total = 1`, violating the `correct ≤ total` invariant. -/
def badStatsSnapshot : JsonVal :=
  .obj [("stats", .obj [("T", .obj [("correct", .num 2), ("total", .num 1)])])]

/-- A persisted snapshot with a valid one-question bank and a `stats`
field that is an array (of one well-formed entry object). -/
def arrayStatsSnapshot : JsonVal :=
  .obj [("questionBank", .arr [goodQJson]),
        ("stats", .arr [.obj [("correct", .num 1), ("total", .num 1)]])]

/-- A persisted snapshot with a valid one-question bank and the stored
index 5, which is out of range for a bank of length 1. -/
def jsxSnapshot : JsonVal :=
  .obj [("questionBank", .arr [goodQJson]), ("index", .num 5)]

/-- A small stats mapping exercising `accuracyByTopic`: unsorted keys
and one zero-total topic. -/
def sampleStats : TopicStats := [("B", ⟨1, 2⟩), ("A", ⟨1, 3⟩), ("Z", ⟨0, 0⟩)]

/-- Overwriting the position that holds `b` with `x` and re-consing
`b` in front permutes consing `x` in front. -/
theorem perm_cons_set {α : Type _} (x b : α) :
    ∀ (t : List α) (k : Nat), t.get? k = some b → (b :: t.set k x).Perm (x :: t)
  | c :: t', 0, h => by
      rw [List.get?_cons_zero, Option.some.injEq] at h
      subst h
      exact List.Perm.swap x c t'
  | c :: t', k + 1, h => by
      rw [List.get?_cons_succ] at h
      show (b :: c :: t'.set k x).Perm (x :: c :: t')
      exact ((List.Perm.swap c b _).trans
        (List.Perm.cons c (perm_cons_set x b t' k h))).trans (List.Perm.swap x c t')

/-- Exchanging the values at two in-range positions by a double `set`
is a permutation. -/
theorem set_set_perm {α : Type _} :
    ∀ (l : List α) (i j : Nat) (a b : α), l.get? i = some a → l.get? j = some b →
      ((l.set i b).set j a).Perm l
  | [], _, _, _, _, ha, _ => by rw [List.get?_nil] at ha; cases ha
  | c :: t, 0, 0, a, b, ha, hb => by
      rw [List.get?_cons_zero, Option.some.injEq] at ha hb
      subst ha; subst hb
      exact List.Perm.refl _
  | c :: t, 0, j + 1, a, b, ha, hb => by
      rw [List.get?_cons_zero, Option.some.injEq] at ha
      rw [List.get?_cons_succ] at hb
      subst ha
      exact perm_cons_set c b t j hb
  | c :: t, i + 1, 0, a, b, ha, hb => by
      rw [List.get?_cons_succ] at ha
      rw [List.get?_cons_zero, Option.some.injEq] at hb
      subst hb
      exact perm_cons_set c a t i ha
  | c :: t, i + 1, j + 1, a, b, ha, hb => by
      rw [List.get?_cons_succ] at ha hb
      exact List.Perm.cons c (set_set_perm t i j a b ha hb)

/-- The destructuring swap of the Fisher-Yates loop is a
permutation. -/
theorem listSwap_perm {α : Type _} (l : List α) (i j : Nat) : (listSwap l i j).Perm l := by
  unfold listSwap
  split
  · next a b ha hb => exact set_set_perm l i j a b ha hb
  · exact List.Perm.refl l

/-- Every pass of the Fisher-Yates loop yields a permutation of its
input. -/
theorem fyAux_perm {α : Type _} (rand : Nat → Nat) :
    ∀ (n : Nat) (l : List α), (fyAux rand n l).Perm l
  | 0, l => List.Perm.refl l
  | n + 1, l => (fyAux_perm rand n _).trans (listSwap_perm l (n + 1) _)

/-- `shuffleArray` returns a permutation of its input, for every
stream of random draws. -/
theorem shuffleArray_perm {α : Type _} (rand : Nat → Nat) (l : List α) :
    (shuffleArray rand l).Perm l := fyAux_perm rand _ l

/-- The entry looked up before a `recordStats` update satisfies the
stats invariant (it is either a member of the mapping or the fresh
zero entry). -/
theorem lookup_entry_inv (stats : TopicStats) (topic : String) (h : statsInv stats) :
    0 ≤ ((stats.lookup topic).getD ⟨0, 0⟩).correct ∧
    ((stats.lookup topic).getD ⟨0, 0⟩).correct ≤ ((stats.lookup topic).getD ⟨0, 0⟩).total := by
  cases hl : stats.lookup topic with
  | none => simp
  | some e =>
      obtain ⟨l₁, l₂, hsplit, -⟩ := List.lookup_eq_some_iff.mp hl
      have hm : (topic, e) ∈ stats := by rw [hsplit]; simp
      simpa using h (topic, e) hm

/-- `recordStats` preserves the `TopicStats` invariant. -/
theorem recordStats_inv (stats : TopicStats) (topic : String) (c : Bool)
    (h : statsInv stats) : statsInv (recordStats stats topic c) := by
  have he := lookup_entry_inv stats topic h
  set e := (stats.lookup topic).getD ⟨0, 0⟩ with hedef
  have hinv' : 0 ≤ e.correct + (if c then (1 : Rat) else 0) ∧
      e.correct + (if c then (1 : Rat) else 0) ≤ e.total + 1 := by
    constructor
    · have : (0 : Rat) ≤ if c then (1 : Rat) else 0 := by split <;> norm_num
      linarith [he.1]
    · have : (if c then (1 : Rat) else 0) ≤ 1 := by split <;> norm_num
      linarith [he.2]
  intro p hp
  unfold recordStats at hp
  rw [← hedef] at hp
  by_cases hany : stats.any (fun q => q.1 == topic)
  · rw [if_pos hany] at hp
    obtain ⟨q, hq, hfq⟩ := List.mem_map.mp hp
    by_cases hqt : q.1 == topic
    · rw [if_pos hqt] at hfq
      rw [← hfq]
      exact hinv'
    · rw [if_neg hqt] at hfq
      rw [← hfq]
      exact h q hq
  · rw [if_neg hany] at hp
    rcases List.mem_append.mp hp with hmem | hmem
    · exact h p hmem
    · rw [List.mem_singleton.mp hmem]
      exact hinv'

/-- The stats after the import body are either untouched (failure) or
cleared (success). -/
theorem importBody_stats (rand : Nat → Nat) (d : JsonVal) (s : AppState) :
    (importBody rand d s).stats = s.stats ∨ (importBody rand d s).stats = [] := by
  unfold importBody
  split
  · split
    · exact Or.inl rfl
    · split
      · exact Or.inl rfl
      · exact Or.inr rfl
  · exact Or.inl rfl

/-- The stats after `handleImportJSON` are either untouched or
cleared. -/
theorem handleImportJSON_stats (rand : Nat → Nat) (inp : ImportInput) (s : AppState) :
    (handleImportJSON rand inp s).stats = s.stats ∨ (handleImportJSON rand inp s).stats = [] := by
  cases inp with
  | noFile => exact Or.inl rfl
  | readFailure => exact Or.inl rfl
  | parseFailure => exact importBody_stats rand .null { s with importError := "" }
  | parsed d => exact importBody_stats rand d { s with importError := "" }

/-- The bank-adoption step never touches the stats. -/
theorem hydrateBankStep_stats (saved : JsonVal) (s : AppState) :
    (hydrateBankStep saved s).stats = s.stats := by
  unfold hydrateBankStep
  split
  · split <;> rfl
  · rfl

/-- The accuracy-flag step touches neither bank, index nor stats. -/
theorem hydrateAccuracyStep_frame (saved : JsonVal) (s : AppState) :
    (hydrateAccuracyStep saved s).questionBank = s.questionBank ∧
    (hydrateAccuracyStep saved s).index = s.index ∧
    (hydrateAccuracyStep saved s).stats = s.stats := by
  unfold hydrateAccuracyStep
  split <;> exact ⟨rfl, rfl, rfl⟩

/-- The stats-adoption step touches neither bank nor index. -/
theorem hydrateStatsStep_frame (saved : JsonVal) (s : AppState) :
    (hydrateStatsStep saved s).questionBank = s.questionBank ∧
    (hydrateStatsStep saved s).index = s.index := by
  unfold hydrateStatsStep
  split <;> exact ⟨rfl, rfl⟩

/-- What the stats-adoption step does to the stats. -/
theorem hydrateStatsStep_stats (saved : JsonVal) (s : AppState) :
    (hydrateStatsStep saved s).stats =
      if isJsObject (jfield saved "stats") then castStats (jfield saved "stats")
      else s.stats := by
  unfold hydrateStatsStep
  by_cases h : isJsObject (jfield saved "stats") = true <;> simp [h]

/-- Bounds of `clampIndex`: the result lies in `[0, length - 1]` for a
positive length and is 0 for a non-positive one. -/
theorem clampIndex_bounds (idx : Rat) (len : Int) :
    (0 < len → 0 ≤ clampIndex idx len ∧ clampIndex idx len ≤ (len : Rat) - 1) ∧
    (len ≤ 0 → clampIndex idx len = 0) := by
  unfold clampIndex
  constructor
  · intro h
    rw [if_neg (by omega)]
    refine ⟨le_max_left _ _, max_le ?_ (min_le_right _ _)⟩
    have h1 : (1 : Rat) ≤ (len : Rat) := by exact_mod_cast h
    linarith
  · intro h
    rw [if_pos h]

/-- Bounds of `clampIndex` as applied to an arbitrary persisted
value. -/
theorem clampIndexJS_bounds (v : JsonVal) (len : Int) :
    (0 < len → 0 ≤ clampIndexJS v len ∧ clampIndexJS v len ≤ (len : Rat) - 1) ∧
    (len ≤ 0 → clampIndexJS v len = 0) := by
  cases v with
  | num r => exact clampIndex_bounds r len
  | _ =>
      refine ⟨fun h => ⟨le_refl 0, ?_⟩, fun _ => rfl⟩
      have h1 : (1 : Rat) ≤ (len : Rat) := by exact_mod_cast h
      simp [clampIndexJS]
      linarith

/-- On a value passing the persisted-object guard, hydration is the
three adoption steps in source order. -/
theorem hydrate_of_isJsObject (saved : JsonVal) (s : AppState)
    (hobj : isJsObject saved = true) :
    hydrate saved s =
      hydrateStatsStep saved (hydrateAccuracyStep saved (hydrateBankStep saved s)) := by
  unfold hydrate
  rw [hobj]
  rfl

/-- The bank-adoption step on a snapshot whose `questionBank` is an
array of valid questions. -/
theorem hydrateBankStep_adopt (saved : JsonVal) (s : AppState) (qs : List JsonVal)
    (hbank : jfield saved "questionBank" = .arr qs)
    (hvalid : qs.all isValidQuestion = true) :
    hydrateBankStep saved s =
      { s with questionBank := qs.map toQuestion
               index := clampIndexJS (jfield saved "index") (qs.length : Int) } := by
  unfold hydrateBankStep
  rw [hbank]
  simp [hvalid]

/-- C7: for every sequence `s` and every stream of random draws,
`shuffleArray` returns a sequence that is a permutation of `s`: same
length and same multiset of elements.  The reference-level parts of
the claim hold by the shape of the source: it copies its input before
the loop (`const out = [...arr]`) and mutates only the copy, so the
returned array is a fresh object and the caller's array is unmodified;
in the pure embedding the input is untouched by construction. -/
theorem shuffle_contract_spec {α : Type _} (rand : Nat → Nat) (l : List α) :
    (shuffleArray rand l).Perm l ∧
    (shuffleArray rand l).length = l.length ∧
    ((shuffleArray rand l : List α) : Multiset α) = (l : Multiset α) := by
  have h := shuffleArray_perm rand l
  exact ⟨h, h.length_eq, Quotient.sound h⟩

/-- C8: `handleShuffle` replaces the bank with a shuffle of itself,
resets the index to 0 and clears the per-question transient state but
leaves the stats (and the accuracy flag and error message) unchanged;
`handleResetProgress` resets the index to 0, clears the transient
state and clears the stats but leaves the bank (hence its order)
unchanged. -/
theorem shuffle_reset_frame_spec (rand : Nat → Nat) (s : AppState) :
    (handleShuffle rand s).questionBank = shuffleArray rand s.questionBank ∧
    (handleShuffle rand s).index = 0 ∧
    (handleShuffle rand s).selected = none ∧
    (handleShuffle rand s).showAnswer = false ∧
    (handleShuffle rand s).showExplanation = false ∧
    (handleShuffle rand s).stats = s.stats ∧
    (handleShuffle rand s).showAccuracy = s.showAccuracy ∧
    (handleShuffle rand s).importError = s.importError ∧
    (handleResetProgress s).index = 0 ∧
    (handleResetProgress s).selected = none ∧
    (handleResetProgress s).showAnswer = false ∧
    (handleResetProgress s).showExplanation = false ∧
    (handleResetProgress s).stats = [] ∧
    (handleResetProgress s).questionBank = s.questionBank ∧
    (handleResetProgress s).showAccuracy = s.showAccuracy ∧
    (handleResetProgress s).importError = s.importError :=
  ⟨rfl, rfl, rfl, rfl, rfl, rfl, rfl, rfl, rfl, rfl, rfl, rfl, rfl, rfl, rfl, rfl⟩

/-- C10: a persisted snapshot whose `questionBank` is the empty array
passes the element-wise validation vacuously and is adopted: the bank
becomes empty (replacing whatever bank was in place, in particular the
non-empty seed bank) with index 0, and the current question is then
`undefined`, which is exactly the branch rendering the
"No questions loaded" card. -/
theorem empty_bank_adopted_spec (s : AppState) :
    (([] : List JsonVal).all isValidQuestion = true) ∧
    (hydrate emptyBankSnapshot s).questionBank = [] ∧
    (hydrate emptyBankSnapshot s).index = 0 ∧
    currentQuestion (hydrate emptyBankSnapshot s) = none ∧
    (hydrate emptyBankSnapshot s).stats = s.stats ∧
    initialQuestions.length = 2 :=
  ⟨rfl, rfl, rfl, rfl, rfl, rfl⟩

/-- C3 (code bug): `isValidQuestion` accepts a candidate whose
`answer` is the fractional number 0.5 against a two-element `choices`
array — the finiteness and `0 ≤ answer < choices.length` checks pass,
but integrality is never checked, so the accepted `answer` is not an
integer (its reduced denominator is 2, while every integer rational
has denominator 1) and indexes no choice (`choices[0.5]` is
`undefined`), violating the data-model invariant the claim states. -/
theorem validator_accepts_fractional_answer :
    isValidQuestion fracAnswerQ = true ∧
    jget fracAnswerQ "answer" = some (.num (1/2)) ∧
    jget fracAnswerQ "choices" = some (.arr [.str "A", .str "B"]) ∧
    ((1 : Rat)/2).den = 2 :=
  ⟨by with_unfolding_all decide, rfl, rfl, by with_unfolding_all rfl⟩

/-- C1 (counterexample): in a concrete reachable state in which the
answer is already revealed (`showAnswer = true`) and a choice is still
selected, invoking `handleCheck` again is not a no-op at the
operation's own level: it records into the stats a second time (the
guard checks only `!q || selected === null`, never the revealed
flag — only the UI's disabled button prevents this). -/
theorem checkAnswer_repeat_not_noop :
    revealedState.showAnswer = true ∧
    (handleCheck revealedState).stats ≠ revealedState.stats := by
  refine ⟨rfl, ?_⟩
  have h : (handleCheck revealedState).stats = [("Physiology", ⟨0, 1⟩)] := by
    with_unfolding_all rfl
  rw [h]
  exact List.cons_ne_nil _ _

/-- C1 (amended): the only guards of `handleCheck` are a present
current question and a non-null selection; the revealed flag is not
consulted.  When either guard fails the operation is a no-op; when
both pass — also when the answer is already revealed — it reveals the
answer, hides the explanation, and records into the stats whether the
selection equals the current question's answer under its topic. -/
theorem checkAnswer_guard_spec (s : AppState) :
    (currentQuestion s = none ∨ s.selected = none → handleCheck s = s) ∧
    (∀ q sel, currentQuestion s = some q → s.selected = some sel →
      handleCheck s =
        { s with showAnswer := true
                 showExplanation := false
                 stats := recordStats s.stats q.topic ((sel : Rat) == q.answer) }) := by
  constructor
  · intro h
    unfold handleCheck
    rcases h with h | h
    · rw [h]
    · rw [h]
      all_goals cases hq : currentQuestion s <;> rfl
  · intro q sel hq hsel
    unfold handleCheck
    rw [hq, hsel]

/-- Witness for the amended C1 theorem: instantiating it at the
concrete revealed state. -/
theorem checkAnswer_guard_spec_witness :
    handleCheck revealedState =
      { revealedState with
          showAnswer := true
          showExplanation := false
          stats := recordStats revealedState.stats seedQ1.topic ((0 : Rat) == seedQ1.answer) } :=
  (checkAnswer_guard_spec revealedState).2 seedQ1 0 (by with_unfolding_all rfl) rfl

/-- C5 (counterexample): the older JSX component's hydration adopts
the persisted index with no clamping: on a snapshot holding a valid
one-question bank and the stored index 5, the adopted index is 5,
which is outside `[0, length - 1] = [0, 0]` (clamping the same value
would give 0). -/
theorem jsx_hydrate_index_unclamped :
    (hydrateJsx jsxSnapshot).questionBank = some (.arr [goodQJson]) ∧
    (hydrateJsx jsxSnapshot).index = some (.num 5) ∧
    clampIndexJS (.num 5) (([goodQJson] : List JsonVal).length : Int) = 0 ∧
    ¬ ((5 : Rat) ≤ (([goodQJson] : List JsonVal).length : Rat) - 1) := by
  refine ⟨rfl, by with_unfolding_all rfl, by with_unfolding_all rfl, by norm_num⟩

/-- C5 (amended): in the TypeScript component, whenever a persisted
bank is adopted at load the stored index is passed through
`clampIndex` against the adopted bank's length, so the adopted index
lies in `[0, length - 1]` for a non-empty bank and is 0 for an empty
one.  (The older JSX component adopts `saved.index || 0` without
clamping, so the claim's "every persisted index" part fails there.) -/
theorem hydrate_index_clamped_spec (saved : JsonVal) (s : AppState) (qs : List JsonVal)
    (hobj : isJsObject saved = true)
    (hbank : jfield saved "questionBank" = .arr qs)
    (hvalid : qs.all isValidQuestion = true) :
    (hydrate saved s).index = clampIndexJS (jfield saved "index") (qs.length : Int) ∧
    (qs ≠ [] → 0 ≤ (hydrate saved s).index ∧
      (hydrate saved s).index ≤ (qs.length : Rat) - 1) ∧
    (qs = [] → (hydrate saved s).index = 0) := by
  have hidx : (hydrate saved s).index = clampIndexJS (jfield saved "index") (qs.length : Int) := by
    rw [hydrate_of_isJsObject saved s hobj,
      (hydrateStatsStep_frame saved _).2,
      (hydrateAccuracyStep_frame saved _).2.1,
      hydrateBankStep_adopt saved s qs hbank hvalid]
  refine ⟨hidx, fun hne => ?_, fun hnil => ?_⟩
  · have hlen : 0 < (qs.length : Int) := by
      cases qs with
      | nil => exact absurd rfl hne
      | cons a t => simp
    have hb := (clampIndexJS_bounds (jfield saved "index") (qs.length : Int)).1 hlen
    rw [hidx]
    refine ⟨hb.1, ?_⟩
    have : ((qs.length : Int) : Rat) = (qs.length : Rat) := by push_cast; ring
    rw [this] at hb
    exact hb.2
  · rw [hidx, hnil]
    exact (clampIndexJS_bounds _ _).2 (by simp)

/-- Witness for the amended C5 theorem: the TypeScript hydration
clamps the very snapshot (bank length 1, stored index 5) that the JSX
version adopts unclamped. -/
theorem hydrate_index_clamped_spec_witness :
    0 ≤ (hydrate jsxSnapshot revealedState).index ∧
    (hydrate jsxSnapshot revealedState).index ≤ (([goodQJson] : List JsonVal).length : Rat) - 1 :=
  (hydrate_index_clamped_spec jsxSnapshot revealedState [goodQJson] rfl rfl
    (by with_unfolding_all rfl)).2.1 (List.cons_ne_nil _ _)

/-- C4 (counterexample): at load, persisted stats are adopted by type
assertion with no per-entry validation: a snapshot whose "T" entry has
`correct = 2` and `total = 1` is adopted as-is, so directly after the
load operation the `correct ≤ total` invariant fails. -/
theorem hydrate_adopts_invalid_stats :
    (hydrate badStatsSnapshot revealedState).stats = [("T", ⟨2, 1⟩)] ∧
    ¬ statsInv (hydrate badStatsSnapshot revealedState).stats := by
  have hst : (hydrate badStatsSnapshot revealedState).stats = [("T", ⟨2, 1⟩)] := by
    with_unfolding_all rfl
  refine ⟨hst, fun h => ?_⟩
  have h2 := h ("T", ⟨2, 1⟩) (by rw [hst]; exact List.mem_singleton.mpr rfl)
  have hlt : ¬ ((2 : Rat) ≤ 1) := by norm_num
  exact hlt h2.2

/-- C4 (amended): the `correct ≤ total` invariant (with non-negative
counters) is preserved by answer-check recording and established by
reset and by import, which leave the stats untouched or clear them;
at load, however, the persisted stats are adopted unvalidated, so the
invariant holds after hydration only when the snapshot's stats already
satisfy it. -/
theorem stats_invariant_spec (s : AppState) (rand : Nat → Nat) (inp : ImportInput)
    (saved : JsonVal) (hs : statsInv s.stats) :
    statsInv (handleCheck s).stats ∧
    statsInv (handleResetProgress s).stats ∧
    statsInv (handleImportJSON rand inp s).stats ∧
    (statsInv (castStats (jfield saved "stats")) → statsInv (hydrate saved s).stats) := by
  refine ⟨?_, ?_, ?_, ?_⟩
  · cases hq : currentQuestion s with
    | none =>
        unfold handleCheck
        rw [hq]
        exact hs
    | some q =>
        cases hsel : s.selected with
        | none =>
            unfold handleCheck
            rw [hq, hsel]
            exact hs
        | some sel =>
            unfold handleCheck
            rw [hq, hsel]
            exact recordStats_inv s.stats q.topic _ hs
  · intro p hp
    exact absurd hp (List.not_mem_nil p)
  · rcases handleImportJSON_stats rand inp s with h | h <;> rw [h]
    · exact hs
    · intro p hp
      exact absurd hp (List.not_mem_nil p)
  · intro hcast
    by_cases hobj : isJsObject saved = true
    · rw [hydrate_of_isJsObject saved s hobj, hydrateStatsStep_stats]
      by_cases hstat : isJsObject (jfield saved "stats") = true
      · rw [if_pos hstat]
        exact hcast
      · rw [if_neg hstat, (hydrateAccuracyStep_frame saved _).2.2, hydrateBankStep_stats]
        exact hs
    · have hfalse : isJsObject saved = false := by
        revert hobj
        cases isJsObject saved <;> simp
      unfold hydrate
      rw [hfalse]
      exact hs

/-- Witness for the amended C4 theorem, at the concrete revealed state
and the invariant-violating snapshot. -/
theorem stats_invariant_spec_witness :
    statsInv (handleCheck revealedState).stats ∧
    statsInv (handleResetProgress revealedState).stats ∧
    statsInv (handleImportJSON sampleRand .parseFailure revealedState).stats ∧
    (statsInv (castStats (jfield badStatsSnapshot "stats")) →
      statsInv (hydrate badStatsSnapshot revealedState).stats) :=
  stats_invariant_spec revealedState sampleRand .parseFailure badStatsSnapshot
    (fun p hp => absurd hp (List.not_mem_nil p))

/-- C6 (counterexample): `typeof` of an array is "object", so the
stats guard `saved.stats && typeof saved.stats === "object"` also
admits arrays: hydrating a snapshot whose `stats` field is a non-empty
array adopts it (the in-memory stats become the array's index-keyed
entries), contradicting "well-typed as an object that is not an
array". -/
theorem hydrate_stats_array_adopted :
    (∃ l, jfield arrayStatsSnapshot "stats" = .arr l) ∧
    isJsObject (jfield arrayStatsSnapshot "stats") = true ∧
    (hydrate arrayStatsSnapshot revealedState).stats = [("0", ⟨1, 1⟩)] ∧
    revealedState.stats = [] := by
  refine ⟨⟨[.obj [("correct", .num 1), ("total", .num 1)]], rfl⟩, rfl, ?_, rfl⟩
  with_unfolding_all rfl

/-- C6 (amended): at load the persisted stats are adopted exactly when
the field is truthy and of JS object type — which includes arrays
(`null`, booleans, numbers and strings are rejected); and the
adoptions are independent: no stats value prevents adoption of a valid
`questionBank`. -/
theorem hydrate_stats_adoption_spec (saved : JsonVal) (s : AppState)
    (hobj : isJsObject saved = true) :
    ((hydrate saved s).stats =
      (if isJsObject (jfield saved "stats") then castStats (jfield saved "stats")
       else s.stats)) ∧
    (∀ v : JsonVal, isJsObject v = true ↔ ((∃ fs, v = .obj fs) ∨ (∃ l, v = .arr l))) ∧
    (∀ qs, jfield saved "questionBank" = .arr qs → qs.all isValidQuestion = true →
      (hydrate saved s).questionBank = qs.map toQuestion) := by
  refine ⟨?_, ?_, ?_⟩
  · rw [hydrate_of_isJsObject saved s hobj, hydrateStatsStep_stats,
      (hydrateAccuracyStep_frame saved _).2.2, hydrateBankStep_stats]
  · intro v
    cases v <;> simp [isJsObject]
  · intro qs hbank hvalid
    rw [hydrate_of_isJsObject saved s hobj,
      (hydrateStatsStep_frame saved _).1, (hydrateAccuracyStep_frame saved _).1,
      hydrateBankStep_adopt saved s qs hbank hvalid]

/-- Witness for the amended C6 theorem: the snapshot whose stats field
is an array still has its valid one-question bank adopted. -/
theorem hydrate_stats_adoption_spec_witness :
    (hydrate arrayStatsSnapshot revealedState).questionBank =
      ([goodQJson] : List JsonVal).map toQuestion :=
  (hydrate_stats_adoption_spec arrayStatsSnapshot revealedState rfl).2.2 [goodQJson] rfl
    (by with_unfolding_all rfl)

/-- C9: the accuracy summary contains exactly the entries of the stats
mapping with `total > 0`, in ascending topic order; every included
entry therefore has a non-zero divisor, and the rendered accuracy is
`round(correct/total*100)` — for correct 1 of total 3, 33%. -/
theorem summarize_spec (stats : TopicStats) (t : String) (e : StatEntry) :
    ((t, e) ∈ accuracyByTopic stats ↔ (t, e) ∈ stats ∧ 0 < e.total) ∧
    List.Pairwise (fun p q : String × StatEntry => p.1 ≤ q.1) (accuracyByTopic stats) ∧
    (∀ p, p ∈ accuracyByTopic stats → p.2.total ≠ 0) ∧
    accuracyPct ⟨1, 3⟩ = 33 := by
  refine ⟨?_, ?_, ?_, by with_unfolding_all decide⟩
  · unfold accuracyByTopic
    rw [List.mem_mergeSort, List.mem_filter]
    simp
  · unfold accuracyByTopic
    have h := @List.sorted_mergeSort (String × StatEntry)
      (fun p q : String × StatEntry => decide (p.1 ≤ q.1))
      (fun a b c hab hbc =>
        decide_eq_true (le_trans (of_decide_eq_true hab) (of_decide_eq_true hbc)))
      (fun a b => by rcases le_total a.1 b.1 with hle | hle <;> simp [hle])
      (stats.filter (fun p => decide (0 < p.2.total)))
    exact h.imp (fun hab => of_decide_eq_true hab)
  · intro p hp
    unfold accuracyByTopic at hp
    rw [List.mem_mergeSort, List.mem_filter] at hp
    have := of_decide_eq_true hp.2
    exact ne_of_gt this

/-- Witness for the C9 theorem: on a concrete mapping, the topic with
total 3 appears in the summary and its divisor is non-zero. -/
theorem summarize_spec_witness :
    ("A", (⟨1, 3⟩ : StatEntry)) ∈ accuracyByTopic sampleStats ∧
    (⟨1, 3⟩ : StatEntry).total ≠ 0 := by
  have h := summarize_spec sampleStats "A" ⟨1, 3⟩
  have hm : ("A", (⟨1, 3⟩ : StatEntry)) ∈ accuracyByTopic sampleStats :=
    h.1.mpr ⟨List.Mem.tail _ (List.Mem.head _), by norm_num⟩
  exact ⟨hm, h.2.2.1 ("A", ⟨1, 3⟩) hm⟩

/-- C2 (counterexample): input that fails to parse as JSON does not
produce the generic read/parse message the claim's taxonomy assigns
to it: `safeParseJSON` returns null and execution continues, so the
structural message is produced instead (the generic message appears
only when reading the file itself throws).  The state apart from the
message is unchanged. -/
theorem import_parse_failure_message :
    (handleImportJSON sampleRand .parseFailure revealedState).importError = structuralMsg ∧
    structuralMsg ≠ genericMsg ∧
    (handleImportJSON sampleRand .parseFailure revealedState).questionBank =
      revealedState.questionBank ∧
    (handleImportJSON sampleRand .parseFailure revealedState).index = revealedState.index ∧
    (handleImportJSON sampleRand .parseFailure revealedState).stats = revealedState.stats ∧
    (handleImportJSON sampleRand .parseFailure revealedState).selected =
      revealedState.selected ∧
    (handleImportJSON sampleRand .parseFailure revealedState).showAnswer =
      revealedState.showAnswer ∧
    (handleImportJSON sampleRand .parseFailure revealedState).showExplanation =
      revealedState.showExplanation :=
  ⟨rfl, by decide, rfl, rfl, rfl, rfl, rfl, rfl⟩

/-- C2 (amended): every failing import leaves bank, index, stats and
per-question transient state unchanged, with the message classes as
the code assigns them: the generic message only for a failure to read
the file; the structural message when the parsed data (including the
null of a failed parse) yields no candidate array or an empty one;
the schema message when some element fails the validator.  On success
the bank becomes a shuffle of the imported questions, the index
resets to 0, the transient state resets, and the stats are cleared. -/
theorem import_behavior_spec (rand : Nat → Nat) (s : AppState) :
    (handleImportJSON rand .noFile s = { s with importError := "" }) ∧
    (handleImportJSON rand .readFailure s = { s with importError := genericMsg }) ∧
    (handleImportJSON rand .parseFailure s = { s with importError := structuralMsg }) ∧
    (∀ d, (∀ qs, importedOf d ≠ some (.arr qs)) →
      handleImportJSON rand (.parsed d) s = { s with importError := structuralMsg }) ∧
    (∀ d, importedOf d = some (.arr []) →
      handleImportJSON rand (.parsed d) s = { s with importError := structuralMsg }) ∧
    (∀ d qs, importedOf d = some (.arr qs) → qs.all isValidQuestion = false →
      handleImportJSON rand (.parsed d) s = { s with importError := schemaMsg }) ∧
    (∀ d qs, importedOf d = some (.arr qs) → qs ≠ [] → qs.all isValidQuestion = true →
      handleImportJSON rand (.parsed d) s =
        { s with questionBank := shuffleArray rand (qs.map toQuestion)
                 index := 0
                 selected := none
                 showAnswer := false
                 showExplanation := false
                 stats := []
                 importError := "" }) := by
  refine ⟨rfl, rfl, rfl, ?_, ?_, ?_, ?_⟩
  · intro d h
    show importBody rand d { s with importError := "" } = _
    unfold importBody
    cases him : importedOf d with
    | none => rfl
    | some v =>
        cases v with
        | arr qs => exact absurd him (h qs)
        | _ => rfl
  · intro d him
    show importBody rand d { s with importError := "" } = _
    unfold importBody
    rw [him]
    rfl
  · intro d qs him hall
    show importBody rand d { s with importError := "" } = _
    unfold importBody
    rw [him]
    cases qs with
    | nil => simp at hall
    | cons a tl => simp [hall]
  · intro d qs him hne hvalid
    show importBody rand d { s with importError := "" } = _
    unfold importBody
    rw [him]
    cases qs with
    | nil => exact absurd rfl hne
    | cons a tl => simp [hvalid]

/-- Witness for the amended C2 theorem: a successful import of an
object exposing a singleton `questions` array, from the concrete
revealed state. -/
theorem import_behavior_spec_witness :
    handleImportJSON sampleRand (.parsed (.obj [("questions", .arr [goodQJson])]))
      revealedState =
      { revealedState with
          questionBank := shuffleArray sampleRand (([goodQJson] : List JsonVal).map toQuestion)
          index := 0
          selected := none
          showAnswer := false
          showExplanation := false
          stats := []
          importError := "" } :=
  (import_behavior_spec sampleRand revealedState).2.2.2.2.2.2
    (.obj [("questions", .arr [goodQJson])]) [goodQJson] rfl (List.cons_ne_nil _ _)
    (by with_unfolding_all rfl)

end QBank
